import Mathlib

/-!
Verification of the order-management core of the `effectivemobile` cafe
application (Django).  The data model (`Dish`, `Order`, `OrderDish`) and the
view/serializer operations are shallowly embedded as pure Lean functions over
explicit state: an order's persisted row together with its `OrderDish` rows is
an `Order` value, the dish catalog is a `List Dish`, and each HTTP handler
becomes a function from the pre-state and the request parameters to the
post-state plus an outcome.  Monetary `Decimal(max_digits=10, decimal_places=2)` values are
integer multiples of 0.01, so they are embedded by their exact value in
hundredths as `Int`; decimal arithmetic in the source is exact and this
embedding preserves it.
-/

namespace Cafe

/-- A row of the `Dish` model (`orders/models.py`): an id, a name and a
decimal price. -/
structure Dish where
  id : Nat
  name : String
  price : Int
deriving DecidableEq, Repr

/-- A row of the `OrderDish` model (`orders/models.py`), scoped to one order:
the referenced dish and a positive-integer quantity (default 1). -/
structure OrderDish where
  dish : Dish
  quantity : Nat
deriving DecidableEq, Repr

/-- A row of the `Order` model together with its `orderdishes` related set:
table number, status string, the cached decimal `total_price`
(model default 0) and the list of `OrderDish` rows. -/
structure Order where
  id : Nat
  table_number : Int
  status : String
  total_price : Int
  orderdishes : List OrderDish
deriving DecidableEq, Repr

/-- The `STATUS_CHOICES` of the `Order` model. -/
def validStatuses : List String := ["pending", "ready", "paid"]

/-- Outcome of a request handler: normal completion, an `Http404` raised by
`get_object_or_404`, or a `MultipleObjectsReturned` raised by the ORM `get`
when several rows match. -/
inductive ViewResult where
  | ok
  | http404
  | multipleObjects
deriving DecidableEq, Repr

/-- `get_object_or_404(Dish, id=dish_id)` / `Dish.objects.get`: look a dish up
in the catalog by id. -/
def findDish (catalog : List Dish) (dishId : Nat) : Option Dish :=
  catalog.find? (fun d => d.id == dishId)

/-- The recomputation expression appearing in `OrderUpdateView.post` and
`OrderRemoveDishView.post`:
`sum(order_dish.dish.price * order_dish.quantity for order_dish in order.orderdishes.all())`. -/
def computeTotal (lines : List OrderDish) : Int :=
  (lines.map (fun l => l.dish.price * (l.quantity : Int))).sum

/-- Number of `OrderDish` rows of the order that reference the given dish id. -/
def linesFor (lines : List OrderDish) (dishId : Nat) : Nat :=
  lines.countP (fun l => l.dish.id == dishId)

/-- The body of the dish loop of `OrderUpdateView.post` for one dish, in the
non-exceptional cases of `OrderDish.objects.get_or_create(order=order, dish=dish)`:
if no row exists for the dish, create one with the default quantity 1
(`created` is true, so no increment); otherwise increment the existing row's
quantity by 1 and save it. -/
def addDishLine (lines : List OrderDish) (d : Dish) : List OrderDish :=
  if lines.any (fun l => l.dish.id == d.id) then
    lines.map (fun l => if l.dish.id == d.id then { l with quantity := l.quantity + 1 } else l)
  else
    lines ++ [{ dish := d, quantity := 1 }]

/-- The `for dish_id in dish_ids` loop of `OrderUpdateView.post`.  Each
iteration first resolves the dish (`get_object_or_404(Dish, id=dish_id)`,
aborting the request with `Http404` when absent — rows already written by
earlier iterations stay persisted), then runs `get_or_create` (which raises
`MultipleObjectsReturned` when more than one row already matches) and the
quantity increment.  Returns the persisted lines and the outcome. -/
def processDishIds (catalog : List Dish) : List OrderDish → List Nat → List OrderDish × ViewResult
  | lines, [] => (lines, .ok)
  | lines, dishId :: rest =>
    match findDish catalog dishId with
    | none => (lines, .http404)
    | some d =>
      if 2 ≤ linesFor lines d.id then (lines, .multipleObjects)
      else processDishIds catalog (addDishLine lines d) rest

/-- The status branch of `OrderUpdateView.post`: `statusFlag` models
`'status_change' in request.POST` and `st` models
`request.POST.get('status')` (`none` for absent; the Python truthiness test
`if status:` skips the empty string).  Any non-empty value is stored and
saved without validation. -/
def applyStatusChange (order : Order) (statusFlag : Bool) (st : Option String) :
    Order :=
  if statusFlag then
    match st with
    | some s => if s = "" then order else { order with status := s }
    | none => order
  else order

/-- `OrderUpdateView.post` (`orders/views.py`): first the status branch (saved
immediately), then the dish loop; only when the loop completes does the view
recompute `total_price` from the current lines and save the order. -/
def orderUpdatePost (catalog : List Dish) (order : Order) (statusFlag : Bool)
    (st : Option String) (dishIds : List Nat) : Order × ViewResult :=
  match processDishIds catalog (applyStatusChange order statusFlag st).orderdishes dishIds with
  | (lines, .ok) =>
    ({ applyStatusChange order statusFlag st with
       orderdishes := lines, total_price := computeTotal lines }, .ok)
  | (lines, e) =>
    ({ applyStatusChange order statusFlag st with orderdishes := lines }, e)

/-- The quantity branch of `OrderRemoveDishView.post`, applied to the row
returned by `get_object_or_404(OrderDish, order=order, dish=dish)` (the first
and, under the uniqueness invariant, only row for the dish): decrement when
quantity > 1, delete the row when quantity is 1 (or less). -/
def removeOneUnitLines : List OrderDish → Nat → List OrderDish
  | [], _ => []
  | l :: rest, dishId =>
    if l.dish.id == dishId then
      if 1 < l.quantity then { l with quantity := l.quantity - 1 } :: rest else rest
    else l :: removeOneUnitLines rest dishId

/-- `OrderRemoveDishView.post` (`orders/views.py`): `dishId` models
`request.POST.get('dish_id')` (`none` for absent or empty, which skips the
whole body).  Resolves the dish and the order's row for it with
`get_object_or_404` (raising `Http404` before any write when either is
missing, `MultipleObjectsReturned` when several rows match), applies the
decrement-or-delete branch, then recomputes and saves `total_price`. -/
def orderRemoveDishPost (catalog : List Dish) (order : Order)
    (dishId : Option Nat) : Order × ViewResult :=
  match dishId with
  | none => (order, .ok)
  | some i =>
    match findDish catalog i with
    | none => (order, .http404)
    | some d =>
      if linesFor order.orderdishes d.id = 0 then (order, .http404)
      else if 2 ≤ linesFor order.orderdishes d.id then (order, .multipleObjects)
      else
        let lines := removeOneUnitLines order.orderdishes d.id
        ({ order with orderdishes := lines, total_price := computeTotal lines }, .ok)

/-- `OrderCreateView.post` (`orders/views.py`): `OrderForm` is valid when the
item list is non-empty, every submitted dish id exists
(`ModelMultipleChoiceField` resolves ids against the catalog, deduplicating
them) and the status is one of the model's choices.  On success the order is
saved with the form's table number and status and the model-default
`total_price` of 0, and one `OrderDish` row with quantity 1 is created per
cleaned dish; the view never recomputes `total_price`.  Returns `none` when
the form is invalid (no order is created). -/
def orderCreatePost (catalog : List Dish) (orderId : Nat) (tableNumber : Int)
    (status : String) (dishIds : List Nat) : Option Order :=
  if dishIds.isEmpty then none
  else if ¬ dishIds.all (fun i => (findDish catalog i).isSome) then none
  else if status ∉ validStatuses then none
  else
    let items := catalog.filter (fun d => dishIds.contains d.id)
    some { id := orderId, table_number := tableNumber, status := status,
           total_price := 0,
           orderdishes := items.map (fun d => { dish := d, quantity := 1 }) }

/-- Outcome of an `OrderSerializer` method: normal return, the
`AttributeError` raised by evaluating `instance.orderdish_set` (the FK's
`related_name` is `orderdishes` in `orders/models.py`, so `Order` has no
`orderdish_set` attribute), or the `IntegrityError` raised by
`OrderDish.objects.create` when the validated item carries no dish. -/
inductive ApiResult where
  | ok
  | attributeError
  | integrityError
deriving DecidableEq, Repr

/-- `OrderSerializer.create` (`api/serializers.py`): the nested
`OrderDishSerializer` declares `dish` (and the pk `id`) read-only, so each
validated item of the `items` payload is a bare quantity.  The order row is
created first from the scalar fields (`total_price` is a writable serializer
field, defaulting to the model's 0 when absent).  The item loop then calls
`OrderDish.objects.create(order=order, **item_data)` with no `dish`, which
violates the NOT NULL foreign key and raises `IntegrityError` on the first
item: with a non-empty item list the order row persists with zero lines; with
an empty (or absent) list the create returns normally, also with zero
lines.  `total_price` is never recomputed. -/
def serializerCreate (orderId : Nat) (tableNumber : Int) (status : String)
    (totalPrice : Int) (items : List Nat) : Order × ApiResult :=
  let order : Order :=
    { id := orderId, table_number := tableNumber, status := status,
      total_price := totalPrice, orderdishes := [] }
  match items with
  | [] => (order, .ok)
  | _ :: _ => (order, .integrityError)

/-- `OrderSerializer.update` (`api/serializers.py`): overwrites
`table_number` and `status` when supplied and saves; `total_price` is never
recomputed.  When an item list is supplied (a list of bare quantities, since
`dish` is read-only) the method then evaluates
`instance.orderdish_set.all().delete()`, which raises `AttributeError`
because the related manager is named `orderdishes` — so the existing lines
are never deleted nor replaced, while the scalar fields have already been
saved. -/
def serializerUpdate (inst : Order) (tableNumber : Option Int)
    (status : Option String) (items : Option (List Nat)) : Order × ApiResult :=
  let o := { inst with
             table_number := tableNumber.getD inst.table_number,
             status := status.getD inst.status }
  match items with
  | none => (o, .ok)
  | some _ => (o, .attributeError)

/-- `revenue_calculation` (`orders/views.py`): the
`aggregate(Sum('total_price'))` dictionary entry, which is `None` when no row
matches the `status='paid'` filter. -/
def aggregateSum (values : List Int) : Option Int :=
  if values.isEmpty then none else some values.sum

/-- `revenue_calculation` (`orders/views.py`): filter the orders on
`status='paid'`, aggregate the stored `total_price` column, and coerce the
empty aggregate to 0 with `or 0`. -/
def revenue_calculation (orders : List Order) : Int :=
  (aggregateSum ((orders.filter (fun o => o.status == "paid")).map
    (fun o => o.total_price))).getD 0

/-- The `if table_number: orders = orders.filter(table_number=table_number)`
phase of `order_search`: the filter is applied only when the cleaned value is
truthy, so both a blank field (`none`) and the integer 0 impose no
constraint. -/
def filterByTable (orders : List Order) (tn : Option Int) : List Order :=
  match tn with
  | some n => if n = 0 then orders else orders.filter (fun o => o.table_number == n)
  | none => orders

/-- `order_search` (`orders/views.py`): `tn` models
`cleaned_data.get('table_number')` (`none` when the field is blank) and `st`
models `cleaned_data.get('status')` (the empty string is the "all" choice).
`OrderSearchForm` is valid only when the status is one of its choices; an
invalid form skips all filtering.  The status filter, like the table one, is
applied only when its value is truthy (non-empty). -/
def order_search (orders : List Order) (tn : Option Int) (st : String) :
    List Order :=
  if st ∉ ("" :: validStatuses) then orders
  else if st = "" then filterByTable orders tn
  else (filterByTable orders tn).filter (fun o => o.status == st)

/-- The derived-field invariant of the spec: the cached `total_price` equals
the sum of `dish.price * quantity` over the order's lines. -/
def totalInvariant (o : Order) : Prop :=
  o.total_price = computeTotal o.orderdishes

/-- The uniqueness invariant of the spec: at most one `OrderDish` row per
dish within one order. -/
def uniqueLines (lines : List OrderDish) : Prop :=
  ∀ dishId : Nat, linesFor lines dishId ≤ 1

/-! ### Helper lemmas -/

theorem applyStatusChange_orderdishes (order : Order) (f : Bool)
    (st : Option String) :
    (applyStatusChange order f st).orderdishes = order.orderdishes := by
  unfold applyStatusChange
  cases f
  · rfl
  · cases st with
    | none => rfl
    | some s => by_cases h : s = "" <;> simp [h]

theorem applyStatusChange_total_price (order : Order) (f : Bool)
    (st : Option String) :
    (applyStatusChange order f st).total_price = order.total_price := by
  unfold applyStatusChange
  cases f
  · rfl
  · cases st with
    | none => rfl
    | some s => by_cases h : s = "" <;> simp [h]

theorem orderUpdatePost_ok_invariant (catalog : List Dish) (order : Order)
    (f : Bool) (st : Option String) (ids : List Nat) (o : Order)
    (h : orderUpdatePost catalog order f st ids = (o, ViewResult.ok)) :
    totalInvariant o := by
  unfold orderUpdatePost at h
  rcases hp : processDishIds catalog (applyStatusChange order f st).orderdishes ids
    with ⟨lines, r⟩
  rw [hp] at h
  cases r
  case ok =>
    injection h with h1 h2
    subst h1
    rfl
  case http404 => injection h with h1 h2; exact absurd h2 (by simp)
  case multipleObjects => injection h with h1 h2; exact absurd h2 (by simp)

theorem orderRemoveDishPost_ok_invariant (catalog : List Dish) (order : Order)
    (di : Option Nat) (o : Order) (hdi : di ≠ none)
    (h : orderRemoveDishPost catalog order di = (o, ViewResult.ok)) :
    totalInvariant o := by
  rcases di with _ | i
  · exact absurd rfl hdi
  · simp only [orderRemoveDishPost] at h
    split at h
    · exact absurd (congrArg Prod.snd h) (by simp)
    · split at h
      · exact absurd (congrArg Prod.snd h) (by simp)
      · split at h
        · exact absurd (congrArg Prod.snd h) (by simp)
        · injection h with h1 h2
          subst h1
          rfl

theorem orderUpdatePost_ok_or_total (catalog : List Dish) (order : Order)
    (f : Bool) (st : Option String) (ids : List Nat) :
    (orderUpdatePost catalog order f st ids).2 = ViewResult.ok ∨
    (orderUpdatePost catalog order f st ids).1.total_price = order.total_price := by
  unfold orderUpdatePost
  rcases hp : processDishIds catalog (applyStatusChange order f st).orderdishes ids
    with ⟨lines, r⟩
  cases r
  case ok => exact Or.inl rfl
  case http404 => exact Or.inr (applyStatusChange_total_price order f st)
  case multipleObjects => exact Or.inr (applyStatusChange_total_price order f st)

theorem orderUpdatePost_fail_total (catalog : List Dish) (order : Order)
    (f : Bool) (st : Option String) (ids : List Nat)
    (h : (orderUpdatePost catalog order f st ids).2 ≠ ViewResult.ok) :
    (orderUpdatePost catalog order f st ids).1.total_price = order.total_price :=
  (orderUpdatePost_ok_or_total catalog order f st ids).resolve_left h

theorem orderRemoveDishPost_ok_or_frame (catalog : List Dish) (order : Order)
    (di : Option Nat) :
    (orderRemoveDishPost catalog order di).2 = ViewResult.ok ∨
    (orderRemoveDishPost catalog order di).1 = order := by
  rcases di with _ | i
  · exact Or.inl rfl
  · simp only [orderRemoveDishPost]
    split
    · exact Or.inr rfl
    · split
      · exact Or.inr rfl
      · split
        · exact Or.inr rfl
        · exact Or.inl rfl

theorem orderRemoveDishPost_fail_frame (catalog : List Dish) (order : Order)
    (di : Option Nat)
    (h : (orderRemoveDishPost catalog order di).2 ≠ ViewResult.ok) :
    (orderRemoveDishPost catalog order di).1 = order :=
  (orderRemoveDishPost_ok_or_frame catalog order di).resolve_left h

theorem orderUpdatePost_orderdishes (catalog : List Dish) (order : Order)
    (f : Bool) (st : Option String) (ids : List Nat) :
    (orderUpdatePost catalog order f st ids).1.orderdishes =
      (processDishIds catalog order.orderdishes ids).1 := by
  unfold orderUpdatePost
  rw [applyStatusChange_orderdishes]
  rcases hp : processDishIds catalog order.orderdishes ids with ⟨lines, r⟩
  cases r <;> rfl

theorem linesFor_addDishLine_present (lines : List OrderDish) (d : Dish)
    (i : Nat) (hpresent : lines.any (fun l => l.dish.id == d.id) = true) :
    linesFor (addDishLine lines d) i = linesFor lines i := by
  unfold addDishLine linesFor
  rw [if_pos hpresent, List.countP_map]
  apply List.countP_congr
  intro l _
  by_cases h : l.dish.id = d.id <;> simp [h]

theorem linesFor_addDishLine_absent (lines : List OrderDish) (d : Dish)
    (i : Nat) (habsent : lines.any (fun l => l.dish.id == d.id) = false) :
    linesFor (addDishLine lines d) i =
      linesFor lines i + (if d.id == i then 1 else 0) := by
  unfold addDishLine linesFor
  rw [if_neg (by simp [habsent]), List.countP_append]
  congr 1
  by_cases h : d.id = i <;>
    simp [List.countP_cons, List.countP_nil, h]

theorem uniqueLines_addDishLine (lines : List OrderDish) (d : Dish)
    (h : uniqueLines lines) : uniqueLines (addDishLine lines d) := by
  intro i
  rcases hany : lines.any (fun l => l.dish.id == d.id) with _ | _
  · rw [linesFor_addDishLine_absent lines d i hany]
    by_cases hi : d.id == i
    · have hid : d.id = i := by simpa using hi
      have h0 : linesFor lines i = 0 := by
        rw [linesFor, List.countP_eq_zero]
        intro l hl
        rw [← hid]
        exact List.any_eq_false.mp hany l hl
      simp [h0, hi]
    · rw [if_neg hi, Nat.add_zero]
      exact h i
  · rw [linesFor_addDishLine_present lines d i hany]
    exact h i

theorem uniqueLines_processDishIds (catalog : List Dish) (ids : List Nat) :
    ∀ lines : List OrderDish, uniqueLines lines →
      uniqueLines (processDishIds catalog lines ids).1 := by
  induction ids with
  | nil => exact fun lines h => h
  | cons dishId rest ih =>
    intro lines h
    unfold processDishIds
    split
    · exact h
    · split
      · exact h
      · exact ih _ (uniqueLines_addDishLine lines _ h)

theorem processDishIds_twice_absent (catalog : List Dish)
    (lines : List OrderDish) (i : Nat) (d : Dish)
    (hd : findDish catalog i = some d)
    (h0 : linesFor lines d.id = 0) :
    processDishIds catalog lines [i, i] =
      (lines ++ [{ dish := d, quantity := 2 }], ViewResult.ok) := by
  have hzero : ∀ x ∈ lines, ¬ (x.dish.id == d.id) = true := by
    rw [← List.countP_eq_zero]
    exact h0
  have hany : lines.any (fun l => l.dish.id == d.id) = false :=
    List.any_eq_false.mpr hzero
  have hadd1 : addDishLine lines d = lines ++ [(⟨d, 1⟩ : OrderDish)] := by
    unfold addDishLine
    rw [if_neg (by simp [hany])]
  have hcount1 : linesFor (lines ++ [(⟨d, 1⟩ : OrderDish)]) d.id = 1 := by
    unfold linesFor at h0 ⊢
    simp [List.countP_append, List.countP_cons, List.countP_nil, h0]
  have hany1 : (lines ++ [(⟨d, 1⟩ : OrderDish)]).any
      (fun l => l.dish.id == d.id) = true := by
    simp
  have hadd2 : addDishLine (lines ++ [(⟨d, 1⟩ : OrderDish)]) d =
      lines ++ [(⟨d, 2⟩ : OrderDish)] := by
    unfold addDishLine
    rw [if_pos hany1, List.map_append]
    congr 1
    · calc lines.map (fun l => if l.dish.id == d.id
            then { l with quantity := l.quantity + 1 } else l)
          = lines.map id := by
            apply List.map_congr_left
            intro a ha
            have := hzero a ha
            simp only [id]
            rw [if_neg this]
        _ = lines := List.map_id lines
    · simp
  unfold processDishIds
  simp only [hd]
  rw [if_neg (by omega : ¬ 2 ≤ linesFor lines d.id), hadd1]
  unfold processDishIds
  simp only [hd]
  rw [if_neg (by omega : ¬ 2 ≤ linesFor (lines ++ [(⟨d, 1⟩ : OrderDish)]) d.id),
    hadd2]
  rfl

theorem countP_id_le_one_of_nodup (ds : List Dish) (i : Nat)
    (hnd : (ds.map Dish.id).Nodup) :
    ds.countP (fun d => d.id == i) ≤ 1 := by
  induction ds with
  | nil => simp
  | cons d rest ih =>
    rw [List.map_cons, List.nodup_cons] at hnd
    rw [List.countP_cons]
    by_cases hi : d.id = i
    · have h0 : rest.countP (fun d => d.id == i) = 0 := by
        rw [List.countP_eq_zero]
        intro x hx hxbeq
        have hxi : x.id = i := by simpa using hxbeq
        exact hnd.1 (List.mem_map.mpr ⟨x, hx, hxi.trans hi.symm⟩)
      simp [h0, hi]
    · have : (d.id == i) = false := by simp [hi]
      rw [this]
      simpa using ih hnd.2

theorem uniqueLines_map_quantity_one (ds : List Dish)
    (hnd : (ds.map Dish.id).Nodup) :
    uniqueLines (ds.map (fun d => (⟨d, 1⟩ : OrderDish))) := by
  intro i
  unfold linesFor
  rw [List.countP_map]
  exact countP_id_le_one_of_nodup ds i hnd

theorem removeOneUnitLines_append (pre rest : List OrderDish) (i : Nat)
    (h : ∀ x ∈ pre, (x.dish.id == i) = false) :
    removeOneUnitLines (pre ++ rest) i = pre ++ removeOneUnitLines rest i := by
  induction pre with
  | nil => rfl
  | cons x xs ih =>
    have hx := h x (by simp)
    simp only [List.cons_append, removeOneUnitLines, hx, Bool.false_eq_true,
      if_false, List.append_eq]
    rw [ih (fun y hy => h y (by simp [hy]))]

theorem removeOneUnitLines_cons_match (l : OrderDish) (post : List OrderDish)
    (i : Nat) (h : (l.dish.id == i) = true) :
    removeOneUnitLines (l :: post) i =
      if 1 < l.quantity then { l with quantity := l.quantity - 1 } :: post
      else post := by
  simp only [removeOneUnitLines, h]
  rfl

theorem aggregateSum_getD (values : List Int) :
    (aggregateSum values).getD 0 = values.sum := by
  unfold aggregateSum
  split
  next he =>
    rw [List.isEmpty_iff.mp he]
    rfl
  next => rfl

/-! ### Claim theorems -/

/-- C1 (amended).  After every successful mutation through the web views —
`OrderUpdateView.post` (adding dishes and/or changing status) and
`OrderRemoveDishView.post` with a dish id supplied — the stored `total_price`
equals the sum of `dish.price * quantity` over the order's `OrderDish` rows.
The API `OrderSerializer.update`, by contrast, never recomputes
`total_price` and never alters the line set: a scalar-only update (no item
list) succeeds leaving both untouched, and an item-bearing update raises
`AttributeError` before touching any line — so a pre-existing stale total
survives an API status change (see the counterexample). -/
theorem web_mutations_restore_total_invariant :
    (∀ catalog order f st ids o,
        orderUpdatePost catalog order f st ids = (o, ViewResult.ok) →
        totalInvariant o) ∧
    (∀ catalog order i o,
        orderRemoveDishPost catalog order (some i) = (o, ViewResult.ok) →
        totalInvariant o) ∧
    (∀ inst tn s items,
        (serializerUpdate inst tn s items).1.total_price = inst.total_price ∧
        (serializerUpdate inst tn s items).1.orderdishes = inst.orderdishes) :=
  ⟨fun catalog order f st ids o h =>
    orderUpdatePost_ok_invariant catalog order f st ids o h,
   fun catalog order i o h =>
    orderRemoveDishPost_ok_invariant catalog order (some i) o (by simp) h,
   fun inst tn s items => by cases items <;> exact ⟨rfl, rfl⟩⟩

/-- Witness for C1: concrete successful add and remove, both restoring the
invariant, and a concrete API update leaving total and lines untouched. -/
theorem web_mutations_restore_total_invariant_witness :
    totalInvariant ⟨1, 3, "pending", 10, [⟨⟨1, "Pizza", 10⟩, 1⟩]⟩ ∧
    totalInvariant ⟨1, 3, "pending", 10, [⟨⟨1, "Pizza", 10⟩, 1⟩]⟩ ∧
    (serializerUpdate ⟨2, 4, "pending", 7, []⟩ none (some "paid") none).1.total_price = 7 :=
  ⟨web_mutations_restore_total_invariant.1 [⟨1, "Pizza", 10⟩]
      ⟨1, 3, "pending", 0, []⟩ false none [1]
      ⟨1, 3, "pending", 10, [⟨⟨1, "Pizza", 10⟩, 1⟩]⟩ (by decide),
   web_mutations_restore_total_invariant.2.1 [⟨1, "Pizza", 10⟩]
      ⟨1, 3, "pending", 20, [⟨⟨1, "Pizza", 10⟩, 2⟩]⟩ 1
      ⟨1, 3, "pending", 10, [⟨⟨1, "Pizza", 10⟩, 1⟩]⟩ (by decide),
   (web_mutations_restore_total_invariant.2.2
      ⟨2, 4, "pending", 7, []⟩ none (some "paid") none).1⟩

/-- C1 counterexample: the create view leaves a freshly created Pizza+Salad
order with the stale cached total 0 (line sum 1500); a successful API
scalar update changing its status to `paid` — a mutating operation of the
claim — returns normally without recomputing `total_price`, so afterwards the
stored total 0 still differs from the line sum 1500. -/
theorem api_update_leaves_total_stale :
    orderCreatePost [⟨1, "Pizza", 1000⟩, ⟨2, "Salad", 500⟩] 1 3 "pending" [1, 2] =
      some ⟨1, 3, "pending", 0, [⟨⟨1, "Pizza", 1000⟩, 1⟩, ⟨⟨2, "Salad", 500⟩, 1⟩]⟩ ∧
    serializerUpdate ⟨1, 3, "pending", 0, [⟨⟨1, "Pizza", 1000⟩, 1⟩, ⟨⟨2, "Salad", 500⟩, 1⟩]⟩
        none (some "paid") none =
      (⟨1, 3, "paid", 0, [⟨⟨1, "Pizza", 1000⟩, 1⟩, ⟨⟨2, "Salad", 500⟩, 1⟩]⟩, ApiResult.ok) ∧
    computeTotal [⟨⟨1, "Pizza", 1000⟩, 1⟩, ⟨⟨2, "Salad", 500⟩, 1⟩] = 1500 ∧
    ¬ totalInvariant ⟨1, 3, "paid", 0, [⟨⟨1, "Pizza", 1000⟩, 1⟩, ⟨⟨2, "Salad", 500⟩, 1⟩]⟩ :=
  ⟨by decide, by decide, by decide,
   fun h => absurd h (by unfold totalInvariant; decide)⟩

/-- C4 (confirmed).  Removing one unit of a dish that exists in the catalog
but has no `OrderDish` row in the order fails with `Http404`
(`get_object_or_404(OrderDish, ...)`) and returns the order completely
unchanged: status, `total_price` and every line are exactly as before. -/
theorem removeOneUnit_absent_fails_unchanged (catalog : List Dish)
    (order : Order) (i : Nat) (d : Dish)
    (hd : findDish catalog i = some d)
    (habs : linesFor order.orderdishes d.id = 0) :
    orderRemoveDishPost catalog order (some i) = (order, ViewResult.http404) := by
  simp [orderRemoveDishPost, hd, habs]

/-- Witness for C4: removing Pizza from an order holding only a Salad line. -/
theorem removeOneUnit_absent_fails_unchanged_witness :
    orderRemoveDishPost [⟨1, "Pizza", 10⟩] ⟨1, 3, "pending", 5, [⟨⟨2, "Salad", 5⟩, 1⟩]⟩
      (some 1) = (⟨1, 3, "pending", 5, [⟨⟨2, "Salad", 5⟩, 1⟩]⟩, ViewResult.http404) :=
  removeOneUnit_absent_fails_unchanged [⟨1, "Pizza", 10⟩]
    ⟨1, 3, "pending", 5, [⟨⟨2, "Salad", 5⟩, 1⟩]⟩ 1 ⟨1, "Pizza", 10⟩
    (by decide) (by decide)

/-- C5 (amended).  The status branch of `OrderUpdateView.post` performs no
validation at all: any non-empty submitted status string — whether or not it
is one of `{pending, ready, paid}` — is stored and the request succeeds; an
absent or empty status value leaves the status unchanged.  No
`InvalidStatusError` exists in the view. -/
theorem changeStatus_no_validation (catalog : List Dish) (order : Order)
    (s : String) (hs : s ≠ "") :
    (orderUpdatePost catalog order true (some s) []).1.status = s ∧
    (orderUpdatePost catalog order true (some s) []).2 = ViewResult.ok ∧
    (orderUpdatePost catalog order true (some "") []).1.status = order.status ∧
    (orderUpdatePost catalog order true none []).1.status = order.status := by
  unfold orderUpdatePost processDishIds applyStatusChange
  simp [hs]

/-- Witness for C5: the invalid value "bogus" is stored verbatim. -/
theorem changeStatus_no_validation_witness :
    (orderUpdatePost [] ⟨1, 3, "pending", 0, []⟩ true (some "bogus") []).1.status = "bogus" ∧
    (orderUpdatePost [] ⟨1, 3, "pending", 0, []⟩ true (some "bogus") []).2 = ViewResult.ok ∧
    (orderUpdatePost [] ⟨1, 3, "pending", 0, []⟩ true (some "") []).1.status = "pending" ∧
    (orderUpdatePost [] ⟨1, 3, "pending", 0, []⟩ true none []).1.status = "pending" :=
  changeStatus_no_validation [] ⟨1, 3, "pending", 0, []⟩ "bogus" (by decide)

/-- C5 counterexample: a status value outside `{pending, ready, paid}` is
accepted and stored instead of failing with `InvalidStatusError` and leaving
the status unchanged. -/
theorem changeStatus_accepts_invalid_value :
    (orderUpdatePost [] ⟨1, 3, "pending", 0, []⟩ true (some "bogus") []).1.status = "bogus" ∧
    (orderUpdatePost [] ⟨1, 3, "pending", 0, []⟩ true (some "bogus") []).2 = ViewResult.ok ∧
    "bogus" ∉ validStatuses := by
  decide

/-- C6 (code bug).  `OrderCreateView.post` on
`(table_number=3, dishes=[Pizza at 10, Salad at 5], status=pending)` creates
the order with two quantity-1 lines but leaves `total_price` at the model
default 0: the view never recomputes the total, although the line sum is 15
(which is what the repository's own `test_order_creation` asserts). -/
theorem createOrder_leaves_total_zero :
    orderCreatePost [⟨1, "Pizza", 10⟩, ⟨2, "Salad", 5⟩] 1 3 "pending" [1, 2] =
      some ⟨1, 3, "pending", 0, [⟨⟨1, "Pizza", 10⟩, 1⟩, ⟨⟨2, "Salad", 5⟩, 1⟩]⟩ ∧
    computeTotal [⟨⟨1, "Pizza", 10⟩, 1⟩, ⟨⟨2, "Salad", 5⟩, 1⟩] = 15 := by
  decide

/-- C9 (amended).  The views give no transactional atomicity: an
`OrderUpdateView.post` that fails partway keeps the lines persisted by the
iterations before the failure while never recomputing `total_price` (which
retains its pre-call value and can disagree with the final lines); a failing
`OrderRemoveDishView.post` happens to leave the order fully unchanged because
it raises before its first write; successful mutations apply fully with a
recomputed total. -/
theorem mutations_not_atomic :
    (∀ catalog order f st ids,
        (orderUpdatePost catalog order f st ids).2 ≠ ViewResult.ok →
        (orderUpdatePost catalog order f st ids).1.total_price = order.total_price) ∧
    (∀ catalog order f st ids o,
        orderUpdatePost catalog order f st ids = (o, ViewResult.ok) →
        totalInvariant o) ∧
    (∀ catalog order di,
        (orderRemoveDishPost catalog order di).2 ≠ ViewResult.ok →
        (orderRemoveDishPost catalog order di).1 = order) :=
  ⟨fun catalog order f st ids h =>
    orderUpdatePost_fail_total catalog order f st ids h,
   fun catalog order f st ids o h =>
    orderUpdatePost_ok_invariant catalog order f st ids o h,
   fun catalog order di h =>
    orderRemoveDishPost_fail_frame catalog order di h⟩

/-- Witness for C9: a failing update keeps the old total, a successful one
restores the invariant, and a failing remove leaves the order unchanged. -/
theorem mutations_not_atomic_witness :
    (orderUpdatePost [] ⟨1, 3, "pending", 7, []⟩ false none [1]).1.total_price = 7 ∧
    totalInvariant ⟨1, 3, "pending", 5, [⟨⟨2, "Salad", 5⟩, 1⟩]⟩ ∧
    (orderRemoveDishPost [] ⟨1, 3, "pending", 7, []⟩ (some 1)).1 =
      ⟨1, 3, "pending", 7, []⟩ :=
  ⟨mutations_not_atomic.1 [] ⟨1, 3, "pending", 7, []⟩ false none [1] (by decide),
   mutations_not_atomic.2.1 [⟨2, "Salad", 5⟩] ⟨1, 3, "pending", 0, []⟩ false none [2]
     ⟨1, 3, "pending", 5, [⟨⟨2, "Salad", 5⟩, 1⟩]⟩ (by decide),
   mutations_not_atomic.2.2 [] ⟨1, 3, "pending", 7, []⟩ (some 1) (by decide)⟩

/-- C9 counterexample: an update adding the catalog dish Pizza (id 1) and nonexistent
dish id 2 to an empty order fails with `Http404` after the Pizza line has
already been persisted, and `total_price` (0) disagrees with the resulting
line sum (10) — the claim that "no lines have been added and total_price is
unchanged" on partial failure is false. -/
theorem update_partial_failure_keeps_partial_lines :
    orderUpdatePost [⟨1, "Pizza", 10⟩] ⟨1, 3, "pending", 0, []⟩ false none [1, 2] =
      (⟨1, 3, "pending", 0, [⟨⟨1, "Pizza", 10⟩, 1⟩]⟩, ViewResult.http404) ∧
    computeTotal [⟨⟨1, "Pizza", 10⟩, 1⟩] = 10 := by
  decide

/-- C10 (confirmed).  A pure status-change request (`status_change` set, a
non-empty status, no dish ids) is not frame-preserving on `total_price`:
besides storing the status it unconditionally recomputes `total_price` from
the current lines and saves the order. -/
theorem status_only_update_recomputes_total (catalog : List Dish)
    (order : Order) (s : String) (hs : s ≠ "") :
    orderUpdatePost catalog order true (some s) [] =
      ({ order with status := s, total_price := computeTotal order.orderdishes },
        ViewResult.ok) := by
  unfold orderUpdatePost processDishIds applyStatusChange
  simp [hs]

/-- C2 (confirmed).  Every operation that persists `OrderDish` rows preserves
the uniqueness invariant: the add loop of `OrderUpdateView.post`
(`get_or_create` plus increment) preserves it, and adding the same dish twice
to an order not containing it yields exactly one row with quantity 2 (never
two rows); `OrderCreateView.post` creates one quantity-1 row per distinct
catalog dish (unique whenever the catalog's primary keys are distinct); and
the API serializer paths never persist a line at all — `create` raises
`IntegrityError` before any row whenever items are supplied, and `update`
raises `AttributeError` before replacing any line. -/
theorem addDish_preserves_uniqueness :
    (∀ catalog order f st ids, uniqueLines order.orderdishes →
        uniqueLines (orderUpdatePost catalog order f st ids).1.orderdishes) ∧
    (∀ catalog (order : Order) i d, findDish catalog i = some d →
        linesFor order.orderdishes d.id = 0 →
        ((orderUpdatePost catalog order false none [i, i]).1.orderdishes.filter
          (fun l => l.dish.id == d.id)) = [{ dish := d, quantity := 2 }]) ∧
    (∀ catalog orderId tn s ids o, (catalog.map Dish.id).Nodup →
        orderCreatePost catalog orderId tn s ids = some o →
        uniqueLines o.orderdishes) ∧
    (∀ orderId tn s tp items,
        uniqueLines (serializerCreate orderId tn s tp items).1.orderdishes) ∧
    (∀ inst tn s items, uniqueLines inst.orderdishes →
        uniqueLines (serializerUpdate inst tn s items).1.orderdishes) := by
  refine ⟨?_, ?_, ?_, ?_, ?_⟩
  · intro catalog order f st ids h
    rw [orderUpdatePost_orderdishes]
    exact uniqueLines_processDishIds catalog ids order.orderdishes h
  · intro catalog order i d hd h0
    rw [orderUpdatePost_orderdishes, processDishIds_twice_absent catalog
      order.orderdishes i d hd h0]
    have hnil : order.orderdishes.filter (fun l => l.dish.id == d.id) = [] := by
      rw [List.filter_eq_nil_iff]
      rw [linesFor, List.countP_eq_zero] at h0
      exact h0
    simp [List.filter_append, hnil]
  · intro catalog orderId tn s ids o hnd h
    unfold orderCreatePost at h
    split at h
    · exact absurd h (by simp)
    · split at h
      · exact absurd h (by simp)
      · split at h
        · exact absurd h (by simp)
        · injection h with h1
          subst h1
          apply uniqueLines_map_quantity_one
          exact (List.Sublist.map Dish.id (List.filter_sublist catalog)).nodup hnd
  · intro orderId tn s tp items i
    cases items <;> simp [serializerCreate, linesFor]
  · intro inst tn s items h
    cases items <;> exact h

/-- Witness for C2: uniqueness is preserved by a concrete update, adding
Pizza twice to an empty order yields the single row (Pizza, 2), a concrete
create yields unique lines, and a concrete API update preserves
uniqueness. -/
theorem addDish_preserves_uniqueness_witness :
    uniqueLines (orderUpdatePost [⟨1, "Pizza", 10⟩] ⟨1, 3, "pending", 0, []⟩
      false none [1, 1]).1.orderdishes ∧
    ((orderUpdatePost [⟨1, "Pizza", 10⟩] ⟨1, 3, "pending", 0, []⟩
      false none [1, 1]).1.orderdishes.filter
        (fun l => l.dish.id == (1 : Nat))) = [⟨⟨1, "Pizza", 10⟩, 2⟩] ∧
    uniqueLines (⟨1, 3, "pending", 0,
      [⟨⟨1, "Pizza", 10⟩, 1⟩, ⟨⟨2, "Salad", 5⟩, 1⟩]⟩ : Order).orderdishes ∧
    uniqueLines (serializerUpdate ⟨1, 3, "pending", 0, []⟩
      none (some "paid") none).1.orderdishes :=
  ⟨addDish_preserves_uniqueness.1 [⟨1, "Pizza", 10⟩] ⟨1, 3, "pending", 0, []⟩
      false none [1, 1] (fun i => by simp [linesFor]),
   addDish_preserves_uniqueness.2.1 [⟨1, "Pizza", 10⟩] ⟨1, 3, "pending", 0, []⟩
      1 ⟨1, "Pizza", 10⟩ (by decide) (by decide),
   addDish_preserves_uniqueness.2.2.1 [⟨1, "Pizza", 10⟩, ⟨2, "Salad", 5⟩]
      1 3 "pending" [1, 2] _ (by decide) (by decide),
   addDish_preserves_uniqueness.2.2.2.2 ⟨1, 3, "pending", 0, []⟩
      none (some "paid") none (fun i => by simp [linesFor])⟩

/-- C3 (confirmed).  For an order with exactly one `OrderDish` row for the
given dish, `OrderRemoveDishView.post` decrements that row's quantity by 1
when it exceeds 1 and deletes the row when it is 1, leaves all other rows
untouched, and then stores the recomputed `total_price` of the resulting
lines. -/
theorem removeOneUnit_decrement_or_delete (catalog : List Dish)
    (order : Order) (i : Nat) (d : Dish)
    (pre post : List OrderDish) (l : OrderDish)
    (hd : findDish catalog i = some d)
    (hsplit : order.orderdishes = pre ++ l :: post)
    (hl : (l.dish.id == d.id) = true)
    (hpre : ∀ x ∈ pre, (x.dish.id == d.id) = false)
    (hpost : ∀ x ∈ post, (x.dish.id == d.id) = false) :
    orderRemoveDishPost catalog order (some i) =
      ({ order with
         orderdishes := pre ++ (if 1 < l.quantity
           then { l with quantity := l.quantity - 1 } :: post else post),
         total_price := computeTotal (pre ++ (if 1 < l.quantity
           then { l with quantity := l.quantity - 1 } :: post else post)) },
        ViewResult.ok) := by
  have hcount : linesFor order.orderdishes d.id = 1 := by
    rw [hsplit, linesFor, List.countP_append, List.countP_cons]
    have hp : List.countP (fun x => x.dish.id == d.id) pre = 0 :=
      List.countP_eq_zero.mpr (fun x hx => by simp [hpre x hx])
    have hq : List.countP (fun x => x.dish.id == d.id) post = 0 :=
      List.countP_eq_zero.mpr (fun x hx => by simp [hpost x hx])
    simp [hp, hq, hl]
  have hlines : removeOneUnitLines order.orderdishes d.id =
      pre ++ (if 1 < l.quantity
        then { l with quantity := l.quantity - 1 } :: post else post) := by
    rw [hsplit, removeOneUnitLines_append pre (l :: post) d.id hpre,
      removeOneUnitLines_cons_match l post d.id hl]
  simp only [orderRemoveDishPost, hd]
  rw [if_neg (by omega), if_neg (by omega), hlines]

/-- Witness for C3: removing one unit of Pizza (quantity 2, alongside a
Salad row) decrements it to 1 and stores the recomputed total 15. -/
theorem removeOneUnit_decrement_or_delete_witness :
    orderRemoveDishPost [⟨1, "Pizza", 10⟩, ⟨2, "Salad", 5⟩]
        ⟨1, 3, "pending", 25, [⟨⟨2, "Salad", 5⟩, 1⟩, ⟨⟨1, "Pizza", 10⟩, 2⟩]⟩
        (some 1) =
      (⟨1, 3, "pending", 15, [⟨⟨2, "Salad", 5⟩, 1⟩, ⟨⟨1, "Pizza", 10⟩, 1⟩]⟩,
        ViewResult.ok) := by
  rw [removeOneUnit_decrement_or_delete [⟨1, "Pizza", 10⟩, ⟨2, "Salad", 5⟩]
    ⟨1, 3, "pending", 25, [⟨⟨2, "Salad", 5⟩, 1⟩, ⟨⟨1, "Pizza", 10⟩, 2⟩]⟩ 1
    ⟨1, "Pizza", 10⟩ [⟨⟨2, "Salad", 5⟩, 1⟩] [] ⟨⟨1, "Pizza", 10⟩, 2⟩
    (by decide) rfl (by decide) (by decide) (by decide)]
  decide

/-- C7 (confirmed).  `revenue_calculation` returns exactly the sum of the
stored `total_price` over the orders whose status is `paid` (no
recomputation from lines), and returns 0 — not an absent value — when no
paid order exists. -/
theorem revenue_sums_paid_totals (orders : List Order) :
    revenue_calculation orders =
      ((orders.filter (fun o => o.status == "paid")).map
        (fun o => o.total_price)).sum ∧
    (orders.countP (fun o => o.status == "paid") = 0 →
      revenue_calculation orders = 0) := by
  constructor
  · exact aggregateSum_getD _
  · intro h0
    have hfil : orders.filter (fun o => o.status == "paid") = [] :=
      List.filter_eq_nil_iff.mpr (fun a ha => List.countP_eq_zero.mp h0 a ha)
    unfold revenue_calculation
    rw [hfil]
    rfl

/-- Witness for C7: the spec scenario — one pending and two paid orders with
totals 15.00 and 22.50 (in hundredths) — yields revenue 37.50, and a
pending-only collection yields 0. -/
theorem revenue_sums_paid_totals_witness :
    revenue_calculation [⟨1, 1, "pending", 1500, []⟩, ⟨2, 2, "paid", 1500, []⟩,
        ⟨3, 3, "paid", 2250, []⟩] = 3750 ∧
    revenue_calculation [⟨1, 1, "pending", 1500, []⟩] = 0 :=
  ⟨by
    have := (revenue_sums_paid_totals [⟨1, 1, "pending", 1500, []⟩,
      ⟨2, 2, "paid", 1500, []⟩, ⟨3, 3, "paid", 2250, []⟩]).1
    rw [this]
    decide,
   (revenue_sums_paid_totals [⟨1, 1, "pending", 1500, []⟩]).2 (by decide)⟩

/-- C8 (amended).  When the supplied table number is not 0 and the supplied
status is a valid choice (with the empty string as the "all" choice),
`order_search` returns exactly the orders matching every supplied filter,
ANDed; no filter imposes no constraint.  (A supplied table number of 0 is
treated as omitted by Python truthiness; see the counterexample.) -/
theorem order_search_matches_filters (orders : List Order) (tn : Option Int)
    (st : String) (hst : st ∈ ("" :: validStatuses))
    (htn : ∀ n, tn = some n → n ≠ 0) :
    order_search orders tn st =
      orders.filter (fun o =>
        (match tn with | some n => o.table_number == n | none => true) &&
        (st == "" || o.status == st)) := by
  unfold order_search
  rw [if_neg (not_not_intro hst)]
  have hsteq : st = "" → (st == "") = true := fun h => by simp [h]
  have hstne : st ≠ "" → (st == "") = false := fun h => by simp [h]
  rcases tn with _ | n
  · by_cases h0 : st = ""
    · subst h0
      simp [filterByTable]
    · rw [if_neg h0]
      unfold filterByTable
      apply List.filter_congr
      intro o _
      rw [hstne h0, Bool.false_or, Bool.true_and]
  · have hn : n ≠ 0 := htn n rfl
    by_cases h0 : st = ""
    · subst h0
      simp only [if_pos rfl, filterByTable, if_neg hn]
      apply List.filter_congr
      intro o _
      simp
    · rw [if_neg h0]
      simp only [filterByTable]
      rw [if_neg hn, List.filter_filter]
      apply List.filter_congr
      intro o _
      rw [hstne h0, Bool.false_or, Bool.and_comm]

/-- Witness for C8: both filters supplied (table 5, status paid) select
exactly the matching order. -/
theorem order_search_matches_filters_witness :
    order_search [⟨1, 5, "paid", 1500, []⟩, ⟨2, 5, "pending", 0, []⟩,
        ⟨3, 7, "paid", 2250, []⟩] (some 5) "paid" =
      [⟨1, 5, "paid", 1500, []⟩] := by
  rw [order_search_matches_filters [⟨1, 5, "paid", 1500, []⟩,
    ⟨2, 5, "pending", 0, []⟩, ⟨3, 7, "paid", 2250, []⟩] (some 5) "paid"
    (by decide) (fun n h => by injection h with h2; omega)]
  decide

/-- C8 counterexample: searching with a supplied table number of 0 returns
every order — including one whose table number is 5 — instead of exactly the
orders with table number 0. -/
theorem order_search_ignores_table_zero :
    order_search [⟨1, 0, "pending", 0, []⟩, ⟨2, 5, "paid", 0, []⟩] (some 0) "" =
      [⟨1, 0, "pending", 0, []⟩, ⟨2, 5, "paid", 0, []⟩] ∧
    (⟨2, 5, "paid", 0, []⟩ : Order).table_number ≠ 0 := by
  decide

/-- Witness for C10: the stale total 0 left by order creation is overwritten
with the line sum 15 by a pure status change to "ready". -/
theorem status_only_update_recomputes_total_witness :
    orderUpdatePost [] ⟨1, 3, "pending", 0, [⟨⟨1, "Pizza", 10⟩, 1⟩, ⟨⟨2, "Salad", 5⟩, 1⟩]⟩
        true (some "ready") [] =
      (⟨1, 3, "ready", 15, [⟨⟨1, "Pizza", 10⟩, 1⟩, ⟨⟨2, "Salad", 5⟩, 1⟩]⟩, ViewResult.ok) := by
  rw [status_only_update_recomputes_total []
    ⟨1, 3, "pending", 0, [⟨⟨1, "Pizza", 10⟩, 1⟩, ⟨⟨2, "Salad", 5⟩, 1⟩]⟩ "ready" (by decide)]
  decide

end Cafe
